import Mathlib

/-!
Verification development for the parameter/prior subsystem of PyTransit
(`src/param/parameter.py`).  The Python module is shallowly embedded:

* Python floats are modelled as exact rationals (`ℚ`) for parameter values
  and prior hyperparameters; possibly-infinite bounds are modelled as
  `ERat := WithBot (WithTop ℚ)` so that the default Python bounds
  `(-inf, inf)` are representable and all bound comparisons are decidable.
* Log-density values (which may be `-inf`) live in `EReal`; the exact real
  value of a transcendental expression such as `m.log(b-a)` is kept
  symbolically via `Real.log`.
* Stateful methods of `ParameterSet` (a `list` subclass) become functions
  `ParameterSet → ParameterSet × Option PyError`: the returned state is the
  object state after the call (Python exceptions can leave partial
  mutations behind), and the `Option PyError` component records the raised
  exception, if any.
-/

namespace PyTransit

/-- Extended rationals: the model for Python float bounds, where `⊥` stands
for `-inf` and `⊤` for `inf`.  The order is decidable, unlike `EReal`. -/
abbrev ERat : Type := WithBot (WithTop ℚ)

/-- Embed a finite rational value into `ERat` (a finite Python float seen as
a bound). -/
def qe (q : ℚ) : ERat := ((q : WithTop ℚ) : ERat)

/-- The Python exceptions raised by `param/parameter.py`, by the built-in
exception class the source raises.  The spec's error taxonomy maps onto
these raise sites: `ConfigurationError` is the `AssertionError` of the
`PParameterBlock` / `LParameterBlock` constructors, `FrozenSetError` is the
`ValueError` raised by `append` / `extend` / `_update_indices` on a frozen
set, `NotFoundError` is the `KeyError` of `find_pid`, and the `validate`
errors are `ValueError`s. -/
inductive PyError where
  | valueError (msg : String)
  | assertionError (msg : String)
  | keyError (msg : String)
  | nameError (msg : String)
  | typeError (msg : String)
  | zeroDivisionError
  deriving DecidableEq, Repr

/-- The prior distributions of `param/parameter.py` (`DefaultPrior`,
`NormalPrior`, `UniformPrior`, `JeffreysPrior`, `LogLogisticPrior`,
`GammaPrior`), carrying the constructor hyperparameters.  The Python
classes precompute constants (`_f1`, `_lf1`, `_f2`, `lnc`, `_f`, `A`) at
construction; here `logpdf` computes the same expressions directly. -/
inductive Prior where
  | defaultP
  | normal (mean std : ℚ)
  | uniform (a b : ℚ)
  | jeffreys (x0 x1 : ℚ)
  | logLogistic (a b : ℚ)
  | gammaP (a : ℚ)
  deriving DecidableEq, Repr

/-- `Prior.logpdf`, from the source's `logpdf` methods, case by case:

* `DefaultPrior.logpdf` returns `0`;
* `NormalPrior.logpdf` returns `_lf1 - _f2*(x-mean)**2` with
  `_f1 = 1/sqrt(2*pi*std**2)`, `_lf1 = log(_f1)`, `_f2 = 1/(2*std**2)`;
* `UniformPrior.logpdf` returns `where((a < v) & (v < b), lnc, -inf)`
  with `lnc = m.log(b-a)` — note the source stores `log(b-a)`, not
  `log(1/(b-a))`;
* `JeffreysPrior.logpdf` returns `where((x > x0) & (x < x1),
  -log(x * _f), -inf)` with `_f = log(x1/x0)`;
* `LogLogisticPrior.logpdf` returns `-inf` unless `1e-3 < v < 1`, else
  `log((b/a) * (v/a)**(b-1) / (1 + (v/a)**b)**2)`;
* `GammaPrior.logpdf` returns `A + (a-1)*log(x) - x` with
  `A = -lgamma(a) = -log|Gamma(a)|`. -/
noncomputable def Prior.logpdf : Prior → ℚ → EReal
  | .defaultP, _ => 0
  | .normal mean std, x =>
      ((Real.log (1 / Real.sqrt (2 * Real.pi * (std : ℝ) ^ 2))
        - (1 / (2 * (std : ℝ) ^ 2)) * ((x : ℝ) - (mean : ℝ)) ^ 2 : ℝ) : EReal)
  | .uniform a b, v =>
      if a < v ∧ v < b then ((Real.log ((b : ℝ) - (a : ℝ)) : ℝ) : EReal) else ⊥
  | .jeffreys x0 x1, x =>
      if x0 < x ∧ x < x1 then
        ((-Real.log ((x : ℝ) * Real.log ((x1 : ℝ) / (x0 : ℝ))) : ℝ) : EReal)
      else ⊥
  | .logLogistic a b, v =>
      if 1/1000 < v ∧ v < 1 then
        ((Real.log (((b : ℝ) / (a : ℝ)) * ((v : ℝ) / (a : ℝ)) ^ ((b : ℝ) - 1)
          / (1 + ((v : ℝ) / (a : ℝ)) ^ (b : ℝ)) ^ 2) : ℝ) : EReal)
      else ⊥
  | .gammaP a, x =>
      ((-Real.log |Real.Gamma (a : ℝ)| + ((a : ℝ) - 1) * Real.log (x : ℝ)
        - (x : ℝ) : ℝ) : EReal)

/-- The `Parameter` class: a named scalar with a prior, bounds, a scope tag
(the source keeps the scope as one of the strings `global`, `local`,
`passband`, checked by an `assert` in `__init__`), and a `pid` initialised
to `-1` and assigned on freeze. -/
structure Parameter where
  name : String
  description : String
  unit : String
  prior : Prior
  bounds : ERat × ERat
  pid : Int
  scope : String
  deriving DecidableEq, Repr

/-- `Parameter.__init__` with an explicit scope (the source defaults
`description`/`unit` to `''`, `prior` to `DefaultPrior()`, `bounds` to
`(-inf, inf)`, `scope` to `'global'`, and sets `pid = -1`).  All
constructions below pass scopes from the valid set, so the `assert` on
scope membership is never triggered and is not modelled as an error. -/
def Parameter.make (name description unit : String) (prior : Prior)
    (bounds : ERat × ERat) (scope : String) : Parameter :=
  ⟨name, description, unit, prior, bounds, -1, scope⟩

/-- `GParameter`: a `Parameter` with scope `'global'`. -/
def GParameter.make (name description unit : String) (prior : Prior)
    (bounds : ERat × ERat) : Parameter :=
  Parameter.make name description unit prior bounds "global"

/-- `LParameter`: a `Parameter` with scope `'local'`. -/
def LParameter.make (name description unit : String) (prior : Prior)
    (bounds : ERat × ERat) : Parameter :=
  Parameter.make name description unit prior bounds "local"

/-- `PParameter`: a `Parameter` with scope `'passband'`. -/
def PParameter.make (name description unit : String) (prior : Prior)
    (bounds : ERat × ERat) : Parameter :=
  Parameter.make name description unit prior bounds "passband"

/-- `Parameter.truncated_lnprior`: `prior.logpdf(v)` if
`bounds[0] < v < bounds[1]` (strict open-interval check), else `-inf`. -/
noncomputable def Parameter.truncated_lnprior (p : Parameter) (v : ℚ) : EReal :=
  if p.bounds.1 < qe v ∧ qe v < p.bounds.2 then p.prior.logpdf v else ⊥

/-- `Parameter.lnprior`: the un-truncated `prior.logpdf(v)`. -/
noncomputable def Parameter.lnprior (p : Parameter) (v : ℚ) : EReal :=
  p.prior.logpdf v

/-- The block classes `GParameterBlock`, `PParameterBlock`,
`LParameterBlock`: a named half-open index range `[start, stop)`, with the
passband/light-curve variants additionally carrying the item size and the
passband / light-curve count.  The derived `slice` / `slices` / `nelem`
attributes are functions of these fields and are not stored. -/
inductive ParameterBlock where
  | gBlock (name : String) (start stop : ℕ)
  | pBlock (name : String) (start stop isize npb : ℕ)
  | lBlock (name : String) (start stop isize nlc : ℕ)
  deriving DecidableEq, Repr

/-- The `start` attribute of a block. -/
def ParameterBlock.start : ParameterBlock → ℕ
  | .gBlock _ s _ => s
  | .pBlock _ s _ _ _ => s
  | .lBlock _ s _ _ _ => s

/-- The `stop` attribute of a block. -/
def ParameterBlock.stop : ParameterBlock → ℕ
  | .gBlock _ _ t => t
  | .pBlock _ _ t _ _ => t
  | .lBlock _ _ t _ _ => t

/-- `PParameterBlock.__init__`: asserts `(stop-start) // isize == npb`
(message `The number of parameter sets != npb`) and then
`(stop-start) % isize == 0`.  In Python, `// isize` with `isize == 0`
raises `ZeroDivisionError` before either assert. -/
def PParameterBlock.make (name : String) (start stop isize npb : ℕ) :
    Except PyError ParameterBlock :=
  if isize = 0 then .error .zeroDivisionError
  else if (stop - start) / isize ≠ npb then
    .error (.assertionError "The number of parameter sets != npb")
  else if (stop - start) % isize ≠ 0 then .error (.assertionError "")
  else .ok (.pBlock name start stop isize npb)

/-- `LParameterBlock.__init__`: identical to `PParameterBlock.__init__`
with `nlc` in place of `npb` (message `The number of parameter sets != nlc `). -/
def LParameterBlock.make (name : String) (start stop isize nlc : ℕ) :
    Except PyError ParameterBlock :=
  if isize = 0 then .error .zeroDivisionError
  else if (stop - start) / isize ≠ nlc then
    .error (.assertionError "The number of parameter sets != nlc ")
  else if (stop - start) % isize ≠ 0 then .error (.assertionError "")
  else .ok (.lBlock name start stop isize nlc)

/-- The `ParameterSet` class (a `list` subclass): the backing sequence of
parameters (`pars` models the inherited list contents), the `blocks` list,
the cached bounds matrix (`None` until `_update_indices` runs; the derived
`lbounds` / `ubounds` columns are functions of it and are not stored), and
the `frozen` flag. -/
structure ParameterSet where
  pars : List Parameter
  blocks : List ParameterBlock
  bounds : Option (List (ERat × ERat))
  frozen : Bool
  deriving DecidableEq, Repr

/-- The state-and-exception result of a mutating `ParameterSet` method. -/
abbrev PyRes : Type := ParameterSet × Option PyError

/-- `ParameterSet()`: empty sequence, no blocks, `bounds = None`,
`frozen = False`. -/
def ParameterSet.empty : ParameterSet := ⟨[], [], none, false⟩

/-- `ParameterSet.append`: refuses with
`ValueError('Trying to append to a frozen ParameterSet')` when frozen,
otherwise appends the parameter to the backing sequence. -/
def ParameterSet.append (ps : ParameterSet) (p : Parameter) : PyRes :=
  if ps.frozen then (ps, some (.valueError "Trying to append to a frozen ParameterSet"))
  else ({ ps with pars := ps.pars ++ [p] }, none)

/-- `ParameterSet.extend`: refuses with
`ValueError('Trying to extend a frozen ParameterSet')` when frozen,
otherwise appends all the parameters to the backing sequence. -/
def ParameterSet.extend (ps : ParameterSet) (l : List Parameter) : PyRes :=
  if ps.frozen then (ps, some (.valueError "Trying to extend a frozen ParameterSet"))
  else ({ ps with pars := ps.pars ++ l }, none)

/-- `ParameterSet.add_global_block`: computes `start = len(self)`,
`stop = start + len(pars)`, appends a `GParameterBlock` to `blocks`, then
`extend`s the sequence (so on a frozen set the block is recorded and the
`extend` then raises). -/
def ParameterSet.add_global_block (ps : ParameterSet) (name : String)
    (pars : List Parameter) : PyRes :=
  let start := ps.pars.length
  let stop := start + pars.length
  let ps1 := { ps with blocks := ps.blocks ++ [ParameterBlock.gBlock name start stop] }
  ps1.extend pars

/-- `ParameterSet.add_passband_block`: like `add_global_block` but the
`PParameterBlock` constructor runs (and can raise) before any mutation. -/
def ParameterSet.add_passband_block (ps : ParameterSet) (name : String)
    (isize npb : ℕ) (pars : List Parameter) : PyRes :=
  let start := ps.pars.length
  let stop := start + pars.length
  match PParameterBlock.make name start stop isize npb with
  | .error e => (ps, some e)
  | .ok b =>
    let ps1 := { ps with blocks := ps.blocks ++ [b] }
    ps1.extend pars

/-- `ParameterSet.add_lightcurve_block`: like `add_passband_block` with an
`LParameterBlock`. -/
def ParameterSet.add_lightcurve_block (ps : ParameterSet) (name : String)
    (isize nlc : ℕ) (pars : List Parameter) : PyRes :=
  let start := ps.pars.length
  let stop := start + pars.length
  match LParameterBlock.make name start stop isize nlc with
  | .error e => (ps, some e)
  | .ok b =>
    let ps1 := { ps with blocks := ps.blocks ++ [b] }
    ps1.extend pars

/-- The `for i, p in enumerate(self): p.pid = i` loop of
`_update_indices`, starting the enumeration at `k`. -/
def setPids : ℕ → List Parameter → List Parameter
  | _, [] => []
  | k, p :: rest => { p with pid := (k : Int) } :: setPids (k + 1) rest

/-- `ParameterSet._update_indices`: when not frozen, caches
`bounds = array([p.bounds for p in self])` and assigns each parameter's
`pid` to its position; when frozen, raises
`ValueError('Trying to update a frozen ParameterSet')` without mutating. -/
def ParameterSet._update_indices (ps : ParameterSet) : PyRes :=
  if ps.frozen then (ps, some (.valueError "Trying to update a frozen ParameterSet"))
  else ({ ps with bounds := some (ps.pars.map (·.bounds)), pars := setPids 0 ps.pars }, none)

/-- `ParameterSet.freeze`: calls `_update_indices()` and then sets
`frozen = True`; when `_update_indices` raises, the flag is not touched. -/
def ParameterSet.freeze (ps : ParameterSet) : PyRes :=
  match ps._update_indices with
  | (ps1, none) => ({ ps1 with frozen := true }, none)
  | (ps1, some e) => (ps1, some e)

/-- `ParameterSet.thaw`: sets `frozen = False` and nothing else. -/
def ParameterSet.thaw (ps : ParameterSet) : PyRes :=
  ({ ps with frozen := false }, none)

/-- `ParameterSet.validate`, source lines 259-282.  Its very first check,
`if not all(pd.Categorical(self.names).value_counts() == 1):`, evaluates
`pd.Categorical(...)`, but the module never imports or defines `pd`
(pandas): every call therefore raises `NameError` at that line, before any
of the duplicate-name, naming-convention or passband-coverage logic can
run; the rest of the function body is unreachable. -/
def ParameterSet.validate (_ : ParameterSet) : Option PyError :=
  some (.nameError "name pd is not defined")

/-- Input to `ParameterSet.lnprior`: either a single parameter vector or a
2-D batch of such vectors (rows = samples), as distinguished by
`atleast_2d`. -/
inductive PVInput where
  | vec (v : List ℚ)
  | mat (rows : List (List ℚ))

/-- Output of `ParameterSet.lnprior` after `squeeze`: a scalar when the
per-row result array has a single entry, otherwise one value per row. -/
inductive PVOutput where
  | scalar (x : EReal)
  | vec (xs : List EReal)

/-- `numpy.atleast_2d` on a vector-or-batch input. -/
def atleast_2d : PVInput → List (List ℚ)
  | .vec v => [v]
  | .mat rows => rows

/-- `numpy.squeeze` on the 1-D per-row result array: a length-one axis is
collapsed to a scalar. -/
def squeeze : List EReal → PVOutput
  | [x] => .scalar x
  | xs => .vec xs

/-- The per-row mask of `ParameterSet.lnprior`:
`all(pv > bounds[:, 0], 1) & all(pv < bounds[:, 1], 1)` — both
comparisons strict. -/
def maskRow (bnds : List (ERat × ERat)) (r : List ℚ) : Bool :=
  ((r.zip bnds).all fun p => decide (p.2.1 < qe p.1))
    && ((r.zip bnds).all fun p => decide (qe p.1 < p.2.2))

/-- The accumulation loop of `ParameterSet.lnprior`, per row:
`lnp = zeros(...); for i, p in enumerate(self): lnp += p.lnprior(pv[:, i])`. -/
noncomputable def lnpRow (pars : List Parameter) (r : List ℚ) : EReal :=
  (pars.zip r).foldl (fun acc pv => acc + pv.1.lnprior pv.2) 0

/-- `ParameterSet.lnprior`, the aggregate log-prior (the spec's
`log_prior`): `pv = atleast_2d(pv)`; the mask indexes the cached
`self.bounds`, so when `bounds` is still `None` the subscript raises
`TypeError`; a shape mismatch between the rows and the cached bounds makes
the broadcast `pv > self.bounds[:, 0]` raise, and more parameters than
columns makes `pv[:, i]` raise `IndexError` (both modelled as the numpy
`typeError` payloads below); otherwise each row yields its accumulated
log-prior sum where the mask passes and `-inf` where it fails, and the
result is `squeeze`d. -/
noncomputable def ParameterSet.lnprior (ps : ParameterSet) (input : PVInput) :
    Except PyError PVOutput :=
  match ps.bounds with
  | none => .error (.typeError "NoneType object is not subscriptable")
  | some bnds =>
    let rows := atleast_2d input
    if rows.any fun r => r.length ≠ bnds.length then
      .error (.typeError "operands could not be broadcast together")
    else if bnds.length < ps.pars.length then
      .error (.typeError "index out of bounds")
    else
      .ok (squeeze (rows.map fun r => if maskRow bnds r then lnpRow ps.pars r else (⊥ : EReal)))

/-- `ParameterSet.find_pid`: linear scan by name; raises `KeyError` when
the name is absent. -/
def ParameterSet.find_pid (ps : ParameterSet) (name : String) : Except PyError Int :=
  match ps.pars.find? (fun p => p.name = name) with
  | some p => .ok p.pid
  | none => .error (.keyError ("Could not find parameter " ++ name))

/-- One construction step of the `add_*_block` building API. -/
inductive BuildOp where
  | globalB (name : String) (pars : List Parameter)
  | passbandB (name : String) (isize npb : ℕ) (pars : List Parameter)
  | lightcurveB (name : String) (isize nlc : ℕ) (pars : List Parameter)

/-- Apply one `add_*_block` call. -/
def applyOp (ps : ParameterSet) : BuildOp → PyRes
  | .globalB name pars => ps.add_global_block name pars
  | .passbandB name isize npb pars => ps.add_passband_block name isize npb pars
  | .lightcurveB name isize nlc pars => ps.add_lightcurve_block name isize nlc pars

/-- Run a sequence of `add_*_block` calls, stopping at the first raised
exception (as a Python caller would). -/
def runOps : ParameterSet → List BuildOp → PyRes
  | ps, [] => (ps, none)
  | ps, op :: ops =>
    match applyOp ps op with
    | (ps1, none) => runOps ps1 ops
    | (ps1, some e) => (ps1, some e)

/-- The blocks `bs`, taken in order, tile the index range `[k, n)`
contiguously: each block starts where the previous one stopped. -/
def blocksTileFrom : ℕ → List ParameterBlock → ℕ → Bool
  | k, [], n => k = n
  | k, b :: bs, n => b.start = k && blocksTileFrom b.stop bs n

/-- The cached bounds matrix is the valid frozen cache: the set is frozen
and the cache equals the current parameters' bounds, row by row. -/
def frozenCacheValid (ps : ParameterSet) : Prop :=
  ps.frozen = true ∧ ps.bounds = some (ps.pars.map (·.bounds))

/-! Concrete sets used to instantiate the theorems below. -/

/-- A global parameter with a default prior and bounds `(0, 1)`. -/
def pA : Parameter := Parameter.make "x" "" "" Prior.defaultP (qe 0, qe 1) "global"

/-- A global parameter with a default prior and bounds `(0, 2)`. -/
def pB : Parameter := Parameter.make "y" "" "" Prior.defaultP (qe 0, qe 2) "global"

/-- A passband-scoped parameter with a default prior and bounds `(0, 1)`. -/
def pK (n : String) : Parameter := PParameter.make n "" "" Prior.defaultP (qe 0, qe 1)

/-- A light-curve-scoped parameter with a default prior and bounds `(0, 1)`. -/
def pL : Parameter := LParameter.make "t1" "" "" Prior.defaultP (qe 0, qe 1)

/-- A one-parameter set, not yet frozen. -/
def builtC2 : ParameterSet := (ParameterSet.empty.add_global_block "g" [pA]).1

/-- The one-parameter set, frozen. -/
def demoC2 : ParameterSet := builtC2.freeze.1

/-- A two-parameter set, frozen. -/
def demoC3 : ParameterSet :=
  ((ParameterSet.empty.add_global_block "g" [pA, pB]).1.freeze).1

/-- The cached bounds of `demoC3`. -/
def demoBnds : List (ERat × ERat) := [(qe 0, qe 1), (qe 0, qe 2)]

/-- A three-block construction: two global parameters, a passband block of
two parameters, a light-curve block of one parameter. -/
def demoOps : List BuildOp :=
  [.globalB "g" [pA, pB],
   .passbandB "k" 1 2 [pK "k_g", pK "k_r"],
   .lightcurveB "t" 1 1 [pL]]

/-- The set built from `demoOps`, not yet frozen. -/
def demoBuilt : ParameterSet := (runOps ParameterSet.empty demoOps).1

/-- The set built from `demoOps`, frozen. -/
def demoFrozen : ParameterSet := demoBuilt.freeze.1

/-- A set with two parameters sharing the name `a`. -/
def demoDup : ParameterSet :=
  ⟨[Parameter.make "a" "" "" Prior.defaultP (qe 0, qe 1) "global",
    Parameter.make "a" "" "" Prior.defaultP (qe 0, qe 1) "global"], [], none, false⟩

/-- A set with passband parameters `k1_g`, `k1_r`, `k2_g` and no `k2_r`. -/
def demoKset : ParameterSet :=
  ⟨[pK "k1_g", pK "k1_r", pK "k2_g"], [], none, false⟩

/-- Parameters for a correctly sized passband block (`2 * 3` entries). -/
def sixPars : List Parameter := List.replicate 6 (pK "k")

/-- Parameters for a wrongly sized passband block (five entries). -/
def fivePars : List Parameter := List.replicate 5 (pK "k")

/-! General lemmas about the embedded operations. -/

theorem foldl_add_ereal {α : Type} (l : List α) (f : α → EReal) (c : EReal) :
    l.foldl (fun acc x => acc + f x) c = c + (l.map f).sum := by
  induction l generalizing c with
  | nil => simp
  | cons x xs ih => simp [List.foldl_cons, ih (c + f x), add_assoc]

theorem lnpRow_eq_sum (pars : List Parameter) (r : List ℚ) :
    lnpRow pars r = ((pars.zip r).map fun pv => pv.1.lnprior pv.2).sum := by
  simp [lnpRow, foldl_add_ereal]

theorem maskRow_iff (bnds : List (ERat × ERat)) (r : List ℚ) :
    maskRow bnds r = true ↔ ∀ p ∈ r.zip bnds, p.2.1 < qe p.1 ∧ qe p.1 < p.2.2 := by
  constructor
  · intro h p hp
    simp only [maskRow, Bool.and_eq_true, List.all_eq_true, decide_eq_true_eq] at h
    exact ⟨h.1 p hp, h.2 p hp⟩
  · intro h
    simp only [maskRow, Bool.and_eq_true, List.all_eq_true, decide_eq_true_eq]
    exact ⟨fun p hp => (h p hp).1, fun p hp => (h p hp).2⟩

theorem maskRow_false_of_boundary (bnds : List (ERat × ERat)) (v : List ℚ)
    (h : ∃ p ∈ v.zip bnds, qe p.1 = p.2.1 ∨ qe p.1 = p.2.2) :
    maskRow bnds v = false := by
  obtain ⟨p, hp, hor⟩ := h
  rw [Bool.eq_false_iff]
  intro hm
  obtain ⟨h1, h2⟩ := (maskRow_iff bnds v).1 hm p hp
  rcases hor with he | he
  · exact absurd h1 (by rw [he]; exact lt_irrefl _)
  · exact absurd h2 (by rw [he]; exact lt_irrefl _)

theorem setPids_length (l : List Parameter) : ∀ k, (setPids k l).length = l.length := by
  induction l with
  | nil => intro k; rfl
  | cons p rest ih => intro k; simp [setPids, ih]

theorem setPids_get_pid (l : List Parameter) :
    ∀ (k i : ℕ) (h : i < (setPids k l).length),
      ((setPids k l).get ⟨i, h⟩).pid = ((k + i : ℕ) : Int) := by
  induction l with
  | nil => intro k i h; simp [setPids] at h
  | cons p rest ih =>
    intro k i h
    cases i with
    | zero => simp [setPids]
    | succ j =>
      have hj : j < (setPids (k + 1) rest).length := by
        simpa [setPids] using Nat.lt_of_succ_lt_succ h
      have := ih (k + 1) j hj
      simpa [setPids, Nat.add_assoc, Nat.add_comm 1 j] using this

theorem setPids_map_bounds (l : List Parameter) :
    ∀ k, (setPids k l).map (·.bounds) = l.map (·.bounds) := by
  induction l with
  | nil => intro k; rfl
  | cons p rest ih => intro k; simp [setPids, ih]

theorem blocksTileFrom_append (bs : List ParameterBlock) (b : ParameterBlock) :
    ∀ k m n, blocksTileFrom k bs m = true → b.start = m → b.stop = n →
      blocksTileFrom k (bs ++ [b]) n = true := by
  induction bs with
  | nil =>
    intro k m n h hs ht
    simp only [blocksTileFrom, decide_eq_true_eq] at h
    subst h
    simp [blocksTileFrom, hs, ht]
  | cons x xs ih =>
    intro k m n h hs ht
    simp only [blocksTileFrom, Bool.and_eq_true, decide_eq_true_eq] at h ⊢
    exact ⟨h.1, ih _ _ _ h.2 hs ht⟩

theorem pParameterBlock_make_ok {name : String} {start stop isize npb : ℕ}
    {b : ParameterBlock} (h : PParameterBlock.make name start stop isize npb = .ok b) :
    b = .pBlock name start stop isize npb := by
  unfold PParameterBlock.make at h
  split at h
  · exact absurd h (by simp)
  split at h
  · exact absurd h (by simp)
  split at h
  · exact absurd h (by simp)
  injection h with h
  exact h.symm

theorem lParameterBlock_make_ok {name : String} {start stop isize nlc : ℕ}
    {b : ParameterBlock} (h : LParameterBlock.make name start stop isize nlc = .ok b) :
    b = .lBlock name start stop isize nlc := by
  unfold LParameterBlock.make at h
  split at h
  · exact absurd h (by simp)
  split at h
  · exact absurd h (by simp)
  split at h
  · exact absurd h (by simp)
  injection h with h
  exact h.symm

theorem applyOp_bounds (ps : ParameterSet) (op : BuildOp) (ps1 : ParameterSet)
    (e : Option PyError) (h : applyOp ps op = (ps1, e)) : ps1.bounds = ps.bounds := by
  cases op with
  | globalB name pars =>
    simp only [applyOp, ParameterSet.add_global_block, ParameterSet.extend] at h
    split at h <;> (injection h with h1 _; rw [← h1])
  | passbandB name isize npb pars =>
    simp only [applyOp, ParameterSet.add_passband_block] at h
    split at h
    · injection h with h1 _; rw [← h1]
    · simp only [ParameterSet.extend] at h
      split at h <;> (injection h with h1 _; rw [← h1])
  | lightcurveB name isize nlc pars =>
    simp only [applyOp, ParameterSet.add_lightcurve_block] at h
    split at h
    · injection h with h1 _; rw [← h1]
    · simp only [ParameterSet.extend] at h
      split at h <;> (injection h with h1 _; rw [← h1])

theorem runOps_bounds :
    ∀ (ops : List BuildOp) (ps ps1 : ParameterSet) (e : Option PyError),
      runOps ps ops = (ps1, e) → ps1.bounds = ps.bounds := by
  intro ops
  induction ops with
  | nil =>
    intro ps ps1 e h
    injection h with h1 _
    rw [← h1]
  | cons op rest ih =>
    intro ps ps1 e h
    unfold runOps at h
    rcases hop : applyOp ps op with ⟨ps2, e2⟩
    rw [hop] at h
    cases e2 with
    | none => exact (ih ps2 ps1 e h).trans (applyOp_bounds ps op ps2 none hop)
    | some err =>
      injection h with h1 _
      rw [← h1]
      exact applyOp_bounds ps op ps2 (some err) hop

theorem applyOp_inv (ps : ParameterSet) (op : BuildOp) (ps1 : ParameterSet)
    (h : applyOp ps op = (ps1, none)) (hf : ps.frozen = false)
    (ht : blocksTileFrom 0 ps.blocks ps.pars.length = true) :
    ps1.frozen = false ∧ blocksTileFrom 0 ps1.blocks ps1.pars.length = true := by
  cases op with
  | globalB name pars =>
    simp only [applyOp, ParameterSet.add_global_block, ParameterSet.extend, hf,
      Bool.false_eq_true, if_false] at h
    injection h with h1 _
    rw [← h1]
    refine ⟨rfl, ?_⟩
    simp only [List.length_append]
    exact blocksTileFrom_append ps.blocks _ 0 ps.pars.length _ ht rfl rfl
  | passbandB name isize npb pars =>
    simp only [applyOp, ParameterSet.add_passband_block] at h
    split at h
    · exact absurd h (by simp)
    · rename_i b hmk
      have hb := pParameterBlock_make_ok hmk
      subst hb
      simp only [ParameterSet.extend, hf, Bool.false_eq_true, if_false] at h
      injection h with h1 _
      rw [← h1]
      refine ⟨rfl, ?_⟩
      simp only [List.length_append]
      exact blocksTileFrom_append ps.blocks _ 0 ps.pars.length _ ht rfl rfl
  | lightcurveB name isize nlc pars =>
    simp only [applyOp, ParameterSet.add_lightcurve_block] at h
    split at h
    · exact absurd h (by simp)
    · rename_i b hmk
      have hb := lParameterBlock_make_ok hmk
      subst hb
      simp only [ParameterSet.extend, hf, Bool.false_eq_true, if_false] at h
      injection h with h1 _
      rw [← h1]
      refine ⟨rfl, ?_⟩
      simp only [List.length_append]
      exact blocksTileFrom_append ps.blocks _ 0 ps.pars.length _ ht rfl rfl

theorem runOps_inv :
    ∀ (ops : List BuildOp) (ps ps1 : ParameterSet),
      runOps ps ops = (ps1, none) → ps.frozen = false →
      blocksTileFrom 0 ps.blocks ps.pars.length = true →
      ps1.frozen = false ∧ blocksTileFrom 0 ps1.blocks ps1.pars.length = true := by
  intro ops
  induction ops with
  | nil =>
    intro ps ps1 h hf ht
    injection h with h1 _
    rw [← h1]
    exact ⟨hf, ht⟩
  | cons op rest ih =>
    intro ps ps1 h hf ht
    unfold runOps at h
    rcases hop : applyOp ps op with ⟨ps2, e2⟩
    rw [hop] at h
    cases e2 with
    | none =>
      obtain ⟨hf2, ht2⟩ := applyOp_inv ps op ps2 hop hf ht
      exact ih ps2 ps1 h hf2 ht2
    | some err => exact absurd h (by simp)

/-! Claim theorems. -/

/-- C1: the claim states that for a Uniform prior with `a < b`,
`log_density(x)` equals `log(1/(b-a))` strictly inside `(a, b)` and `-inf`
on and outside the boundary.  The source (`UniformPrior.__init__`, line
61) stores `lnc = m.log(b-a)` and `logpdf` returns that constant inside
`(a, b)`: the boundary behaviour matches the claim, but the returned
constant is `log(b-a)`, not `log(1/(b-a))` — for `UniformPrior(0, 2)` at
`x = 1` the code yields `log 2` whereas the claim requires
`log(1/2) = -log 2`. -/
theorem uniform_logpdf_stores_log_width :
    Prior.logpdf (.uniform 0 2) 1 = ((Real.log 2 : ℝ) : EReal)
    ∧ Prior.logpdf (.uniform 0 2) 0 = ⊥
    ∧ Prior.logpdf (.uniform 0 2) 2 = ⊥
    ∧ (Real.log 2 : ℝ) ≠ Real.log (1 / (2 - 0)) := by
  refine ⟨?_, ?_, ?_, ?_⟩
  · norm_num [Prior.logpdf]
  · norm_num [Prior.logpdf]
  · norm_num [Prior.logpdf]
  · intro h
    rw [show (1 : ℝ) / (2 - 0) = 2⁻¹ by norm_num, Real.log_inv] at h
    have h2 : (0 : ℝ) < Real.log 2 := Real.log_pos (by norm_num)
    linarith

/-- C2, counterexample: the claim asserts the per-row bounds mask of
`ParameterSet.lnprior` is non-strict, so a vector with a component exactly
at its lower bound passes and gets the finite log-prior sum.  On the
frozen one-parameter set `demoC2` (bounds `(0, 1)`, default prior) the
vector `[0]` satisfies the non-strict bounds, its would-be log-prior sum
is `0`, yet the code returns `-inf`. -/
theorem lnprior_boundary_rejected :
    demoC2.bounds = some [(qe 0, qe 1)]
    ∧ (qe 0 ≤ qe 0 ∧ qe 0 ≤ qe 1)
    ∧ demoC2.lnprior (.vec [0]) = .ok (.scalar ⊥)
    ∧ lnpRow demoC2.pars [0] = 0
    ∧ (⊥ : EReal) ≠ 0 := by
  refine ⟨rfl, ⟨le_refl _, by decide⟩, rfl, ?_, EReal.bot_ne_zero⟩
  show lnpRow demoC2.pars [0] = 0
  rw [lnpRow_eq_sum]
  norm_num [demoC2, builtC2, ParameterSet.empty, ParameterSet.add_global_block,
    ParameterSet.extend, ParameterSet.freeze, ParameterSet._update_indices, setPids,
    pA, Parameter.make, Parameter.lnprior, Prior.logpdf]

/-- C2, amended: the per-row bounds mask of `ParameterSet.lnprior` is
strict (`all(pv > lower, 1) & all(pv < upper, 1)`): a row passes iff every
component lies strictly between its cached lower and upper bound, and a
candidate vector with any component exactly equal to its lower or upper
bound fails the mask, making the row evaluate to `-inf`. -/
theorem lnprior_mask_strict (bnds : List (ERat × ERat)) (v : List ℚ)
    (hlen : v.length = bnds.length) :
    (maskRow bnds v = true ↔ ∀ p ∈ v.zip bnds, p.2.1 < qe p.1 ∧ qe p.1 < p.2.2)
    ∧ ∀ ps : ParameterSet, ps.bounds = some bnds → ps.pars.length ≤ bnds.length →
      (∃ p ∈ v.zip bnds, qe p.1 = p.2.1 ∨ qe p.1 = p.2.2) →
      ps.lnprior (.vec v) = .ok (.scalar ⊥) := by
  refine ⟨maskRow_iff bnds v, fun ps hb hle hex => ?_⟩
  have hm : maskRow bnds v = false := maskRow_false_of_boundary bnds v hex
  simp only [ParameterSet.lnprior, hb, atleast_2d]
  rw [if_neg, if_neg]
  · simp [hm, squeeze]
  · exact Nat.not_lt.2 hle
  · simp [hlen]

/-- Witness for `lnprior_mask_strict` at the frozen one-parameter set
`demoC2` and the vector `[0]`, whose single component equals its lower
bound. -/
theorem lnprior_mask_strict_witness :
    ([(0 : ℚ)].length = [((qe 0 : ERat), (qe 1 : ERat))].length)
    ∧ demoC2.bounds = some [(qe 0, qe 1)]
    ∧ demoC2.lnprior (.vec [0]) = .ok (.scalar ⊥) :=
  ⟨rfl, rfl,
    (lnprior_mask_strict [(qe 0, qe 1)] [0] rfl).2 demoC2 rfl (by decide)
      ⟨(0, (qe 0, qe 1)), by decide, Or.inl rfl⟩⟩

/-- C3: on a frozen set (cached bounds present and matching the parameter
count), `ParameterSet.lnprior` evaluates each well-shaped row to the sum
of the parameters' un-truncated log-densities when all components are
strictly inside their cached bounds, and to `-inf` otherwise (in
particular when any component is outside its bounds); a single vector
yields a scalar, and a batch of at least two rows yields one value per
row. -/
theorem lnprior_batch_eval (ps : ParameterSet) (bnds : List (ERat × ERat))
    (hb : ps.bounds = some bnds) (hn : ps.pars.length = bnds.length) :
    (∀ rows : List (List ℚ), (∀ r ∈ rows, r.length = bnds.length) →
      ps.lnprior (.mat rows) = .ok (squeeze (rows.map fun r =>
        if ∀ p ∈ r.zip bnds, p.2.1 < qe p.1 ∧ qe p.1 < p.2.2
        then ((ps.pars.zip r).map fun pv => pv.1.lnprior pv.2).sum
        else (⊥ : EReal))))
    ∧ (∀ r : List ℚ, r.length = bnds.length →
        (∃ p ∈ r.zip bnds, qe p.1 < p.2.1 ∨ p.2.2 < qe p.1) →
        ps.lnprior (.vec r) = .ok (.scalar ⊥))
    ∧ (∀ v : List ℚ, v.length = bnds.length →
        ps.lnprior (.vec v) =
          .ok (.scalar (if maskRow bnds v then lnpRow ps.pars v else ⊥)))
    ∧ (∀ rows : List (List ℚ), (∀ r ∈ rows, r.length = bnds.length) →
        2 ≤ rows.length →
        ∃ vals : List EReal, ps.lnprior (.mat rows) = .ok (.vec vals)
          ∧ vals.length = rows.length) := by
  have hkey : ∀ r : List ℚ,
      (if maskRow bnds r then lnpRow ps.pars r else (⊥ : EReal))
        = (if ∀ p ∈ r.zip bnds, p.2.1 < qe p.1 ∧ qe p.1 < p.2.2
           then ((ps.pars.zip r).map fun pv => pv.1.lnprior pv.2).sum
           else (⊥ : EReal)) := by
    intro r
    by_cases h : ∀ p ∈ r.zip bnds, p.2.1 < qe p.1 ∧ qe p.1 < p.2.2
    · rw [if_pos ((maskRow_iff bnds r).2 h), if_pos h, lnpRow_eq_sum]
    · rw [if_neg (fun hm => h ((maskRow_iff bnds r).1 hm)), if_neg h]
  have hle : ¬ bnds.length < ps.pars.length := Nat.not_lt.2 (le_of_eq hn)
  refine ⟨fun rows hrows => ?_, fun r hr hout => ?_, fun v hv => ?_, fun rows hrows h2 => ?_⟩
  · simp only [ParameterSet.lnprior, hb, atleast_2d]
    rw [if_neg, if_neg hle]
    · rw [funext hkey]
    · simp only [List.any_eq_true, decide_eq_true_eq, not_exists, not_and, not_not]
      exact fun r hr => hrows r hr
  · have hm : maskRow bnds r = false := by
      rw [Bool.eq_false_iff]
      intro hmt
      obtain ⟨p, hp, hor⟩ := hout
      obtain ⟨h1, h2⟩ := (maskRow_iff bnds r).1 hmt p hp
      rcases hor with hlt | hlt
      · exact absurd (h1.trans hlt) (lt_irrefl _)
      · exact absurd (hlt.trans h2) (lt_irrefl _)
    simp only [ParameterSet.lnprior, hb, atleast_2d]
    rw [if_neg, if_neg hle]
    · simp [hm, squeeze]
    · simp [hr]
  · simp only [ParameterSet.lnprior, hb, atleast_2d]
    rw [if_neg, if_neg hle]
    · rfl
    · simp [hv]
  · simp only [ParameterSet.lnprior, hb, atleast_2d]
    rw [if_neg, if_neg hle]
    · refine ⟨rows.map fun r => if maskRow bnds r then lnpRow ps.pars r else ⊥, ?_, by simp⟩
      have : ∃ a b tl, rows.map (fun r => if maskRow bnds r then lnpRow ps.pars r else (⊥ : EReal)) = a :: b :: tl := by
        rcases rows with _ | ⟨r1, _ | ⟨r2, tl⟩⟩
        · simp at h2
        · simp at h2
        · exact ⟨_, _, _, rfl⟩
      obtain ⟨a, b, tl, hmap⟩ := this
      rw [hmap]
      rfl
    · simp only [List.any_eq_true, decide_eq_true_eq, not_exists, not_and, not_not]
      exact fun r hr => hrows r hr

/-- Witness for `lnprior_batch_eval` at the frozen two-parameter set
`demoC3`: a single in-bounds vector yields a scalar (here the finite sum
`0`), and the two-row batch with one out-of-bounds row yields one value
per row. -/
theorem lnprior_batch_eval_witness :
    demoC3.bounds = some demoBnds
    ∧ demoC3.pars.length = demoBnds.length
    ∧ demoC3.lnprior (.vec [1/2, 1]) =
        .ok (.scalar (if maskRow demoBnds [1/2, 1] then lnpRow demoC3.pars [1/2, 1] else ⊥))
    ∧ demoC3.lnprior (.vec [3, 1]) = .ok (.scalar ⊥)
    ∧ (∃ vals : List EReal,
        demoC3.lnprior (.mat [[1/2, 1], [3, 1]]) = .ok (.vec vals) ∧ vals.length = 2) :=
  ⟨rfl, rfl,
    (lnprior_batch_eval demoC3 demoBnds rfl rfl).2.2.1 [1/2, 1] rfl,
    (lnprior_batch_eval demoC3 demoBnds rfl rfl).2.1 [3, 1] rfl
      ⟨(3, (qe 0, qe 1)), by decide, Or.inr (by decide)⟩,
    (lnprior_batch_eval demoC3 demoBnds rfl rfl).2.2.2 [[1/2, 1], [3, 1]] (by decide) (by decide)⟩


/-- C4: the claim states `validate()` raises `DuplicateNameError` on
duplicate names and `IncompleteCoverageError` on incomplete passband
coverage (for example `k1_g`, `k1_r`, `k2_g` without `k2_r`).  In the
source, the first statement of `validate` (line 262) references `pd`,
which the module never imports or defines, so every call — including on a
set with the duplicate names `a`, `a` and on the `k1_g`/`k1_r`/`k2_g`
set — raises `NameError` before any validation check can run. -/
theorem validate_always_raises_nameerror :
    ParameterSet.validate demoDup = some (.nameError "name pd is not defined")
    ∧ ParameterSet.validate demoKset = some (.nameError "name pd is not defined")
    ∧ ∀ ps : ParameterSet, ParameterSet.validate ps = some (.nameError "name pd is not defined") :=
  ⟨rfl, rfl, fun _ => rfl⟩

/-- C5: building a set by any sequence of successful `add_*_block` calls
and then freezing yields `pid = i` for the parameter at every position
`i`, a cached bounds matrix equal row-by-row to the parameters' bounds,
and blocks whose `[start, stop)` ranges tile `[0, N)` contiguously in
construction order. -/
theorem build_freeze_roundtrip (ops : List BuildOp) (ps ps2 : ParameterSet)
    (hbuild : runOps ParameterSet.empty ops = (ps, none))
    (hfreeze : ps.freeze = (ps2, none)) :
    (∀ (i : ℕ) (h : i < ps2.pars.length), (ps2.pars.get ⟨i, h⟩).pid = (i : Int))
    ∧ ps2.bounds = some (ps2.pars.map (·.bounds))
    ∧ blocksTileFrom 0 ps2.blocks ps2.pars.length = true
    ∧ ps2.pars.length = ps.pars.length := by
  obtain ⟨hf, ht⟩ := runOps_inv ops ParameterSet.empty ps hbuild rfl rfl
  have hup : ps._update_indices =
      ({ ps with bounds := some (ps.pars.map (·.bounds)), pars := setPids 0 ps.pars }, none) := by
    simp [ParameterSet._update_indices, hf]
  have hps2 : ps2 = { ps with bounds := some (ps.pars.map (·.bounds)), pars := setPids 0 ps.pars, frozen := true } := by
    unfold ParameterSet.freeze at hfreeze
    rw [hup] at hfreeze
    injection hfreeze with h1 _
    rw [← h1]
  subst hps2
  refine ⟨?_, ?_, ?_, ?_⟩
  · intro i h
    simpa using setPids_get_pid ps.pars 0 i h
  · simp [setPids_map_bounds]
  · simpa [setPids_length] using ht
  · simp [setPids_length]

/-- Witness for `build_freeze_roundtrip` on the three-block construction
`demoOps` (two global parameters, a two-parameter passband block, a
one-parameter light-curve block; five parameters in total). -/
theorem build_freeze_roundtrip_witness :
    runOps ParameterSet.empty demoOps = (demoBuilt, none)
    ∧ demoBuilt.freeze = (demoFrozen, none)
    ∧ (demoFrozen.pars.get ⟨2, by decide⟩).pid = (2 : Int)
    ∧ demoFrozen.bounds = some (demoFrozen.pars.map (·.bounds))
    ∧ blocksTileFrom 0 demoFrozen.blocks demoFrozen.pars.length = true :=
  ⟨rfl, rfl,
    (build_freeze_roundtrip demoOps demoBuilt demoFrozen rfl rfl).1 2 (by decide),
    (build_freeze_roundtrip demoOps demoBuilt demoFrozen rfl rfl).2.1,
    (build_freeze_roundtrip demoOps demoBuilt demoFrozen rfl rfl).2.2.1⟩

/-- C6: on a frozen set, `append` and `extend` raise the frozen-set
`ValueError` (the spec's `FrozenSetError`) and leave the state — in
particular the backing parameter sequence — unchanged; after `thaw()` the
same `append`/`extend` succeed and add the parameter(s) at the end. -/
theorem frozen_append_extend_thaw (ps : ParameterSet) (p : Parameter)
    (l : List Parameter) (h : ps.frozen = true) :
    ps.append p = (ps, some (.valueError "Trying to append to a frozen ParameterSet"))
    ∧ ps.extend l = (ps, some (.valueError "Trying to extend a frozen ParameterSet"))
    ∧ ps.thaw.1.append p = ({ ps.thaw.1 with pars := ps.pars ++ [p] }, none)
    ∧ ps.thaw.1.extend l = ({ ps.thaw.1 with pars := ps.pars ++ l }, none) := by
  refine ⟨?_, ?_, ?_, ?_⟩ <;>
    simp [ParameterSet.append, ParameterSet.extend, ParameterSet.thaw, h]

/-- Witness for `frozen_append_extend_thaw` at the frozen one-parameter
set `demoC2`. -/
theorem frozen_append_extend_thaw_witness :
    demoC2.frozen = true
    ∧ demoC2.append pB = (demoC2, some (.valueError "Trying to append to a frozen ParameterSet"))
    ∧ demoC2.thaw.1.append pB = ({ demoC2.thaw.1 with pars := demoC2.pars ++ [pB] }, none) :=
  ⟨rfl,
    (frozen_append_extend_thaw demoC2 pB [] rfl).1,
    (frozen_append_extend_thaw demoC2 pB [] rfl).2.2.1⟩

/-- C7, counterexample: the claim asserts `freeze()` on an already-frozen
set succeeds.  On the frozen set `demoC2`, `freeze()` calls
`_update_indices()` first, which raises the frozen-set `ValueError`, so
the second `freeze()` fails instead of being idempotent. -/
theorem freeze_twice_fails :
    demoC2.frozen = true
    ∧ demoC2.freeze = (demoC2, some (.valueError "Trying to update a frozen ParameterSet")) :=
  ⟨rfl, rfl⟩

/-- C7, amended: calling `freeze()` on an already-frozen set is not
idempotent: because `freeze` first invokes `_update_indices`, which
rejects frozen sets, the call fails with the frozen-set `ValueError` (the
spec's `FrozenSetError`) and leaves the set unchanged (still frozen, same
pids); a direct call to `_update_indices` while frozen fails the same
way. -/
theorem freeze_on_frozen_fails (ps : ParameterSet) (h : ps.frozen = true) :
    ps.freeze = (ps, some (.valueError "Trying to update a frozen ParameterSet"))
    ∧ ps._update_indices = (ps, some (.valueError "Trying to update a frozen ParameterSet")) := by
  constructor <;> simp [ParameterSet.freeze, ParameterSet._update_indices, h]

/-- Witness for `freeze_on_frozen_fails` at the frozen set `demoFrozen`. -/
theorem freeze_on_frozen_fails_witness :
    demoFrozen.frozen = true
    ∧ demoFrozen.freeze = (demoFrozen, some (.valueError "Trying to update a frozen ParameterSet")) :=
  ⟨rfl, (freeze_on_frozen_fails demoFrozen rfl).1⟩


theorem pblock_make_spec (name : String) (start isize npb len : ℕ) (h0 : 0 < isize) :
    (len = isize * npb → PParameterBlock.make name start (start + len) isize npb =
        .ok (.pBlock name start (start + len) isize npb))
    ∧ (len ≠ isize * npb →
        PParameterBlock.make name start (start + len) isize npb =
            .error (.assertionError "The number of parameter sets != npb")
          ∨ PParameterBlock.make name start (start + len) isize npb =
            .error (.assertionError "")) := by
  have hss : start + len - start = len := by omega
  have hne : ¬ isize = 0 := Nat.pos_iff_ne_zero.mp h0
  constructor
  · intro h
    have hd : len / isize = npb := by rw [h, Nat.mul_div_cancel_left npb h0]
    have hm : len % isize = 0 := by rw [h]; exact Nat.mul_mod_right isize npb
    unfold PParameterBlock.make
    rw [if_neg hne, hss, if_neg (by simp [hd]), if_neg (by simp [hm])]
  · intro h
    unfold PParameterBlock.make
    rw [if_neg hne, hss]
    by_cases hd : len / isize = npb
    · have hm : len % isize ≠ 0 := by
        intro hm0
        refine h ?_
        calc len = isize * (len / isize) + len % isize := (Nat.div_add_mod len isize).symm
          _ = isize * npb := by rw [hd, hm0, Nat.add_zero]
      right
      rw [if_neg (by simp [hd]), if_pos hm]
    · left
      rw [if_pos hd]

theorem lblock_make_spec (name : String) (start isize nlc len : ℕ) (h0 : 0 < isize) :
    (len = isize * nlc → LParameterBlock.make name start (start + len) isize nlc =
        .ok (.lBlock name start (start + len) isize nlc))
    ∧ (len ≠ isize * nlc →
        LParameterBlock.make name start (start + len) isize nlc =
            .error (.assertionError "The number of parameter sets != nlc ")
          ∨ LParameterBlock.make name start (start + len) isize nlc =
            .error (.assertionError "")) := by
  have hss : start + len - start = len := by omega
  have hne : ¬ isize = 0 := Nat.pos_iff_ne_zero.mp h0
  constructor
  · intro h
    have hd : len / isize = nlc := by rw [h, Nat.mul_div_cancel_left nlc h0]
    have hm : len % isize = 0 := by rw [h]; exact Nat.mul_mod_right isize nlc
    unfold LParameterBlock.make
    rw [if_neg hne, hss, if_neg (by simp [hd]), if_neg (by simp [hm])]
  · intro h
    unfold LParameterBlock.make
    rw [if_neg hne, hss]
    by_cases hd : len / isize = nlc
    · have hm : len % isize ≠ 0 := by
        intro hm0
        refine h ?_
        calc len = isize * (len / isize) + len % isize := (Nat.div_add_mod len isize).symm
          _ = isize * nlc := by rw [hd, hm0, Nat.add_zero]
      right
      rw [if_neg (by simp [hd]), if_pos hm]
    · left
      rw [if_pos hd]

/-- C8: on an unfrozen set and with a positive item size,
`add_passband_block(name, isize, npb, pars)` succeeds exactly when
`len(pars) == isize * npb` and otherwise raises one of the two
`AssertionError`s of the `PParameterBlock` constructor (the spec's
`ConfigurationError`); likewise `add_lightcurve_block` with
`isize * nlc`. -/
theorem add_block_size_check (ps : ParameterSet) (name : String) (isize npb nlc : ℕ)
    (pars : List Parameter) (hf : ps.frozen = false) (h0 : 0 < isize) :
    ((ps.add_passband_block name isize npb pars).2 = none ↔ pars.length = isize * npb)
    ∧ (pars.length ≠ isize * npb →
        (ps.add_passband_block name isize npb pars).2 =
            some (.assertionError "The number of parameter sets != npb")
          ∨ (ps.add_passband_block name isize npb pars).2 = some (.assertionError ""))
    ∧ ((ps.add_lightcurve_block name isize nlc pars).2 = none ↔ pars.length = isize * nlc)
    ∧ (pars.length ≠ isize * nlc →
        (ps.add_lightcurve_block name isize nlc pars).2 =
            some (.assertionError "The number of parameter sets != nlc ")
          ∨ (ps.add_lightcurve_block name isize nlc pars).2 = some (.assertionError "")) := by
  have hp := pblock_make_spec name ps.pars.length isize npb pars.length h0
  have hl := lblock_make_spec name ps.pars.length isize nlc pars.length h0
  have hperr : ∀ e, PParameterBlock.make name ps.pars.length (ps.pars.length + pars.length) isize npb = .error e →
      ps.add_passband_block name isize npb pars = (ps, some e) := by
    intro e he
    simp only [ParameterSet.add_passband_block]
    rw [he]
  have hlerr : ∀ e, LParameterBlock.make name ps.pars.length (ps.pars.length + pars.length) isize nlc = .error e →
      ps.add_lightcurve_block name isize nlc pars = (ps, some e) := by
    intro e he
    simp only [ParameterSet.add_lightcurve_block]
    rw [he]
  refine ⟨⟨fun hnone => ?_, fun heq => ?_⟩, fun hne => ?_, ⟨fun hnone => ?_, fun heq => ?_⟩, fun hne => ?_⟩
  · by_contra hne
    rcases hp.2 hne with he | he <;> (rw [hperr _ he] at hnone; exact absurd hnone (by simp))
  · simp only [ParameterSet.add_passband_block]
    rw [hp.1 heq]
    simp [ParameterSet.extend, hf]
  · rcases hp.2 hne with he | he
    · left; rw [hperr _ he]
    · right; rw [hperr _ he]
  · by_contra hne
    rcases hl.2 hne with he | he <;> (rw [hlerr _ he] at hnone; exact absurd hnone (by simp))
  · simp only [ParameterSet.add_lightcurve_block]
    rw [hl.1 heq]
    simp [ParameterSet.extend, hf]
  · rcases hl.2 hne with he | he
    · left; rw [hlerr _ he]
    · right; rw [hlerr _ he]

/-- Witness for `add_block_size_check`: on an empty unfrozen set,
`add_passband_block('k', isize=2, npb=3, pars)` succeeds with six
parameters and fails with five (`5 ≠ 2*3`). -/
theorem add_block_size_check_witness :
    (0 : ℕ) < 2
    ∧ ParameterSet.empty.frozen = false
    ∧ (ParameterSet.empty.add_passband_block "k" 2 3 sixPars).2 = none
    ∧ ¬ (ParameterSet.empty.add_passband_block "k" 2 3 fivePars).2 = none :=
  ⟨by decide, rfl,
    (add_block_size_check ParameterSet.empty "k" 2 3 3 sixPars rfl (by decide)).1.mpr (by decide),
    fun h => absurd
      ((add_block_size_check ParameterSet.empty "k" 2 3 3 fivePars rfl (by decide)).1.mp h)
      (by decide)⟩

/-- C9: `thaw()` clears the `frozen` flag and changes nothing else — the
parameter sequence (hence every `pid`), the blocks list and even the
stored bounds array are untouched — so after `thaw()` the set no longer
has a valid frozen bounds cache (the cache is stale until re-frozen). -/
theorem thaw_effect (ps : ParameterSet) (_h : ps.frozen = true) :
    ps.thaw = ({ ps with frozen := false }, none)
    ∧ ps.thaw.1.pars = ps.pars
    ∧ ps.thaw.1.blocks = ps.blocks
    ∧ ps.thaw.1.bounds = ps.bounds
    ∧ ps.thaw.1.frozen = false
    ∧ ¬ frozenCacheValid ps.thaw.1 := by
  refine ⟨rfl, rfl, rfl, rfl, rfl, ?_⟩
  intro hvalid
  have : false = true := hvalid.1
  exact absurd this (by simp)

/-- Witness for `thaw_effect` at the frozen set `demoC2`. -/
theorem thaw_effect_witness :
    demoC2.frozen = true
    ∧ demoC2.thaw = ({ demoC2 with frozen := false }, none)
    ∧ ¬ frozenCacheValid demoC2.thaw.1 :=
  ⟨rfl, (thaw_effect demoC2 rfl).1, (thaw_effect demoC2 rfl).2.2.2.2.2⟩

/-- C10: a set that has been populated with any sequence of `add_*_block`
calls but never frozen still has `bounds = None` (only `_update_indices`,
invoked by `freeze`, populates the cache), so `lnprior` on any candidate
input raises `TypeError` from subscripting `None` instead of returning a
value. -/
theorem lnprior_requires_freeze (ops : List BuildOp) (ps : ParameterSet)
    (e : Option PyError) (h : runOps ParameterSet.empty ops = (ps, e)) :
    ps.bounds = none
    ∧ ∀ input : PVInput,
        ps.lnprior input = .error (.typeError "NoneType object is not subscriptable") := by
  have hb : ps.bounds = none := runOps_bounds ops ParameterSet.empty ps e h
  refine ⟨hb, fun input => ?_⟩
  simp [ParameterSet.lnprior, hb]

/-- Witness for `lnprior_requires_freeze` on the unfrozen three-block
construction `demoBuilt`. -/
theorem lnprior_requires_freeze_witness :
    runOps ParameterSet.empty demoOps = (demoBuilt, none)
    ∧ demoBuilt.bounds = none
    ∧ demoBuilt.lnprior (.vec [0, 0, 0, 0, 0]) =
        .error (.typeError "NoneType object is not subscriptable") :=
  ⟨rfl, (lnprior_requires_freeze demoOps demoBuilt none rfl).1,
    (lnprior_requires_freeze demoOps demoBuilt none rfl).2 (.vec [0, 0, 0, 0, 0])⟩


end PyTransit
